import Mathlib

/-
Verification of the shared request/response core of the n8n NetApp ONTAP
community nodes (src/nodes/shared/GenericFunctions.ts), against its
natural-language specification.

The TypeScript core manipulates untyped JSON-like values (IDataObject).
We embed those values as the inductive type JValue below, including the
JavaScript distinction between `undefined` and `null`, and model
JavaScript semantics explicitly where the source relies on them:
truthiness, property access (which throws a TypeError on null/undefined
receivers), object spread, and template-literal string coercion.

Machine-float arithmetic appearing in formatBytes (Math.log) and
parseSize (parseFloat) is modelled by exact arithmetic over Nat:
Math.floor(Math.log n / Math.log 1024) becomes Nat.log 1024 n, and the
decimal literal parsed by parseFloat is kept as an exact scaled natural
number.  Every definition below is otherwise a line-by-line translation
of the source.
-/

/-- JValue is a JavaScript/JSON value as manipulated by the source: the two
distinct absent values, booleans, (integer) numbers, strings, arrays and
objects (ordered key/value lists, as JS objects preserve insertion order). -/
inductive JValue : Type where
  | undefined : JValue
  | null : JValue
  | bool : Bool → JValue
  | num : Int → JValue
  | str : String → JValue
  | arr : List JValue → JValue
  | obj : List (String × JValue) → JValue
deriving Repr

/-- JObj is the field list of a JavaScript object (IDataObject). -/
abbrev JObj := List (String × JValue)

/-- truthy is JavaScript truthiness: undefined, null, false, 0 and "" are
falsy; every other value (including empty arrays and objects) is truthy. -/
def JValue.truthy : JValue → Bool
  | .undefined => false
  | .null => false
  | .bool b => b
  | .num n => n != 0
  | .str s => s != ""
  | .arr _ => true
  | .obj _ => true

/-- jlookup finds the value of the first field named k, if any. -/
def jlookup : JObj → String → Option JValue
  | [], _ => none
  | (k1, v) :: rest, k => if k1 = k then some v else jlookup rest k

/-- jget is property read on an object: the field value, or undefined when
the field is absent. -/
def jget (o : JObj) (k : String) : JValue := (jlookup o k).getD .undefined

/-- jset is JavaScript property write / object-spread override: it replaces
the first field named k in place (JS objects keep the original insertion
position of an overwritten key) and appends the field when k is new. -/
def jset : JObj → String → JValue → JObj
  | [], k, v => [(k, v)]
  | (k1, v1) :: rest, k, v =>
      if k1 = k then (k, v) :: rest else (k1, v1) :: jset rest k v

/-- propD is property access on a receiver already known not to be
null/undefined: objects yield their field (or undefined), primitives and
arrays yield undefined for the property names the source reads. -/
def JValue.propD : JValue → String → JValue
  | .obj o, k => jget o k
  | _, _ => .undefined

/-- prop is full JavaScript property access: reading a property of
null or undefined throws a TypeError (modelled as Except.error). -/
def JValue.prop : JValue → String → Except Unit JValue
  | .undefined, _ => .error ()
  | .null, _ => .error ()
  | v, k => .ok (v.propD k)

mutual

/-- jsToString is JavaScript String() coercion as used by template
literals: "undefined"/"null" for the absent values, decimal for integer
numbers, comma-joined element coercion for arrays (with null/undefined
elements becoming empty), "[object Object]" for plain objects. -/
def jsToString : JValue → String
  | .undefined => "undefined"
  | .null => "null"
  | .bool b => if b then "true" else "false"
  | .num n => toString n
  | .str s => s
  | .arr xs => jsArrayToString xs
  | .obj _ => "[object Object]"

/-- jsArrayToString is Array.prototype.toString / join(",") element
coercion. -/
def jsArrayToString : List JValue → String
  | [] => ""
  | [x] =>
      (match x with
       | .undefined => ""
       | .null => ""
       | v => jsToString v)
  | x :: y :: rest =>
      (match x with
       | .undefined => ""
       | .null => ""
       | v => jsToString v) ++ "," ++ jsArrayToString (y :: rest)

end

/-! Request Issuer (ontapApiRequest, GenericFunctions.ts lines 34-84).
Only the construction of the outgoing request options is modelled; the
network transport itself is outside the program. -/

/-- HttpRequestOptions is the options record handed to the HTTP helper;
body and qs are Option because the source deletes those properties
(`delete options.body`, `delete options.qs`) before sending. -/
structure HttpRequestOptions where
  method : String
  body : Option JObj
  qs : Option JObj
  url : String
  skipSslCertificateValidation : Bool
deriving Repr

/-- ontapApiRequestOptions builds the outgoing request exactly as the
source does: start from method/body/qs/url, then delete the body for
GET/DELETE, then delete the query map when it has no keys. -/
def ontapApiRequestOptions (method endpoint : String) (body query : JObj)
    (uri : Option String) (baseUrl : String) (allowUnauthorizedCerts : Bool) :
    HttpRequestOptions :=
  let options : HttpRequestOptions :=
    { method := method
      body := some body
      qs := some query
      url := uri.getD (baseUrl ++ "/api" ++ endpoint)
      skipSslCertificateValidation := allowUnauthorizedCerts }
  let options :=
    if method = "GET" ∨ method = "DELETE" then { options with body := none }
    else options
  if query.length = 0 then { options with qs := none } else options

/-! Pagination Walker (ontapApiRequestAllItems, lines 89-126). -/

/-- OntapPage is one server page response as the walker reads it: an
optional records array under the extraction property, and the optional
pagination cursor response._links.next.href. -/
structure OntapPage (α : Type) where
  records : Option (List α)
  nextLink : Option String

/-- ontapApiRequestAllItemsLoop is the do/while loop of
ontapApiRequestAllItems run against the finite list of page responses the
server will return, in order.  Each iteration issues one request (counted
in the second component), appends the page's records
(`responseData[propertyName] || []`), and continues exactly while the
response carries `_links.next.href`.  The result is none when the loop
would request a page beyond those the server model provides. -/
def ontapApiRequestAllItemsLoop {α : Type} : List (OntapPage α) → Option (List α × Nat)
  | [] => none
  | p :: rest =>
      let recs := p.records.getD []
      match p.nextLink with
      | none => some (recs, 1)
      | some _ =>
          match ontapApiRequestAllItemsLoop rest with
          | none => none
          | some (tail, n) => some (recs ++ tail, n + 1)

/-- ontapApiRequestAllItemsQueryAfter is the observable state of the
CALLER's query mapping after ontapApiRequestAllItems returns: line 107 of
the source executes `query.max_records = query.max_records || 1000`,
an in-place property write on the caller-supplied object. -/
def ontapApiRequestAllItemsQueryAfter (query : JObj) : JObj :=
  jset query "max_records"
    (if (jget query "max_records").truthy then jget query "max_records"
     else .num 1000)

/-! Job Poller (pollJobUntilComplete, lines 131-176). -/

/-- OntapJobResponse is one fetched job-status payload: its state string,
its optional message, and its uuid. -/
structure OntapJobResponse where
  uuid : String
  state : String
  message : Option String
deriving Repr, DecidableEq

/-- jobFailureMessage is `jobResponse.message || 'Job failed without error
message'`: the reported message when truthy (a nonempty string), the fixed
fallback otherwise. -/
def jobFailureMessage (j : OntapJobResponse) : String :=
  match j.message with
  | some m => if m = "" then "Job failed without error message" else m
  | none => "Job failed without error message"

/-- jsNumberDiv1000ToString renders the JavaScript number timeoutMs / 1000
as a template literal does: an exact decimal with no fraction part when
the division is exact, else up to three fraction digits with trailing
zeros dropped (so 100 / 1000 renders as "0.1"). -/
def jsNumberDiv1000ToString (t : Nat) : String :=
  if t % 1000 = 0 then toString (t / 1000)
  else
    let frac := t % 1000
    let d1 := frac / 100
    let d2 := frac / 10 % 10
    let d3 := frac % 10
    toString (t / 1000) ++ "." ++
      (if d3 = 0 then (if d2 = 0 then toString d1 else toString d1 ++ toString d2)
       else toString d1 ++ toString d2 ++ toString d3)

/-- pollJobUntilCompleteLoop is the polling while-loop run against the
finite list of job payloads the server will return, in order.  elapsed is
Date.now() - startTime, advancing by pollIntervalMs at each sleep (the
requests themselves are idealized as instantaneous).  The result is none
when the loop would fetch beyond the payloads the server model provides;
otherwise it is the returned job (Except.ok) or the thrown error message
(Except.error). -/
def pollJobUntilCompleteLoop (jobUuid : String) (timeoutMs pollIntervalMs : Nat) :
    Nat → List OntapJobResponse → Option (Except String OntapJobResponse)
  | elapsed, responses =>
    if elapsed < timeoutMs then
      match responses with
      | [] => none
      | j :: rest =>
        if j.state = "success" then some (.ok j)
        else if j.state = "failure" then
          some (.error ("ONTAP job failed: " ++ jobFailureMessage j))
        else if j.state = "running" ∨ j.state = "queued" ∨ j.state = "paused" then
          pollJobUntilCompleteLoop jobUuid timeoutMs pollIntervalMs
            (elapsed + pollIntervalMs) rest
        else some (.error ("Unknown job state: " ++ j.state))
    else
      some (.error ("Job " ++ jobUuid ++ " did not complete within " ++
        jsNumberDiv1000ToString timeoutMs ++ " seconds"))

/-- pollJobUntilComplete starts the loop at elapsed time zero. -/
def pollJobUntilComplete (jobUuid : String) (timeoutMs pollIntervalMs : Nat)
    (responses : List OntapJobResponse) : Option (Except String OntapJobResponse) :=
  pollJobUntilCompleteLoop jobUuid timeoutMs pollIntervalMs 0 responses

/-! Async Response Resolver (handleAsyncResponse, lines 181-211). -/

/-- handleAsyncResponse models lines 181-211.  The poller it may invoke is
abstracted as pollResult, the outcome pollJobUntilComplete would produce
for the referenced job (its completed payload as a JValue, or the raised
error message).  The guard is the source's `if (job && job.uuid)`:
response.job truthy and its uuid property truthy. -/
def handleAsyncResponse (response : JObj) (waitForCompletion : Bool)
    (pollResult : Except String JValue) : Except String JObj :=
  let job := jget response "job"
  if job.truthy && (job.propD "uuid").truthy then
    if waitForCompletion then
      match pollResult with
      | .error e => .error e
      | .ok completedJob =>
          .ok (jset (jset response "job" completedJob) "_jobCompleted" (.bool true))
    else
      .ok (jset response "_jobCompleted" (.bool false))
  else
    .ok response

/-! Error Normalizer (parseOntapError, lines 216-283). -/

/-- errorCodeMap is the source's vendor error-code lookup table. -/
def errorCodeMap : List (String × String) :=
  [("4", "Invalid input parameters"),
   ("65536", "Resource not found"),
   ("917927", "Volume not found or does not exist"),
   ("1376259", "Aggregate not found"),
   ("2621462", "SVM not found or not configured"),
   ("6619139", "LUN not found"),
   ("13303850", "Snapshot policy not found"),
   ("262179", "Permission denied - check credentials"),
   ("1254269", "Network interface not found"),
   ("2621706", "Export policy not found")]

/-- statusCodeMessage is the source's switch over err.statusCode: the fixed
message for the seven handled HTTP status codes, fall-through otherwise. -/
def statusCodeMessage (statusCode : Int) : Option String :=
  if statusCode = 400 then some "Bad request - Invalid parameters provided"
  else if statusCode = 401 then some "Authentication failed - Invalid username or password"
  else if statusCode = 403 then some "Access denied - Insufficient permissions"
  else if statusCode = 404 then some "Resource not found"
  else if statusCode = 409 then some "Conflict - Resource already exists or operation conflicts with current state"
  else if statusCode = 500 then some "ONTAP internal server error"
  else if statusCode = 503 then some "ONTAP service temporarily unavailable"
  else none

/-- codeSuffix is line 225: `ontapError.code ? \` (Error code: ...)\` : ''`. -/
def codeSuffix (ontapError : JValue) : String :=
  if (ontapError.propD "code").truthy then
    " (Error code: " ++ jsToString (ontapError.propD "code") ++ ")"
  else ""

/-- mapJsMessages is the map of line 231: each element of the nested error
array becomes `e.message || 'Unknown error'`; property access on a null or
undefined element throws, aborting the whole map at the first such
element. -/
def mapJsMessages : List JValue → Except Unit (List JValue)
  | [] => .ok []
  | e :: rest =>
      match e.prop "message" with
      | .error err => .error err
      | .ok m =>
          match mapJsMessages rest with
          | .error err => .error err
          | .ok ms => .ok ((if m.truthy then m else .str "Unknown error") :: ms)

/-- joinArrayErrors is lines 230-233: map the nested error array through
mapJsMessages, then join with "; " (join coerces each element to a
string). -/
def joinArrayErrors (elems : List JValue) : Except Unit JValue :=
  match mapJsMessages elems with
  | .error e => .error e
  | .ok messages => .ok (.str (String.intercalate "; " (messages.map jsToString)))

/-- ontapNestedError is the `if (err.error)` block, lines 220-234: when the
nested error is truthy, return its stringified message with code suffix if
the message is truthy, else the joined messages if it is an array; none
means fall through to the later rules. -/
def ontapNestedError (ontapError : JValue) : Option (Except Unit JValue) :=
  if ontapError.truthy then
    if (ontapError.propD "message").truthy then
      some (.ok (.str (jsToString (ontapError.propD "message") ++ codeSuffix ontapError)))
    else
      match ontapError with
      | .arr elems => some (joinArrayErrors elems)
      | _ => none
  else none

/-- statusCodeStage is lines 251-269: when err.statusCode is truthy, switch
on it with strict number equality; an unmatched or non-number status falls
through. -/
def statusCodeStage (err : JValue) : Option String :=
  if (err.propD "statusCode").truthy then
    match err.propD "statusCode" with
    | .num n => statusCodeMessage n
    | _ => none
  else none

/-- vendorCodeStage is lines 272-275: when err.code is truthy, look it up
in errorCodeMap (JS property lookup coerces the key to a string). -/
def vendorCodeStage (err : JValue) : Option String :=
  if (err.propD "code").truthy then
    List.lookup (jsToString (err.propD "code")) errorCodeMap
  else none

/-- parseOntapError is the whole normalizer, lines 216-283.  The result is
the returned JavaScript value (the source's `return err.message as string`
returns the raw message value unconverted), or Except.error for the
TypeError thrown when a property of null/undefined is read. -/
def parseOntapError (error : JValue) : Except Unit JValue :=
  match error.prop "error" with
  | .error e => .error e
  | .ok errField =>
      match ontapNestedError errField with
      | some r => r
      | none =>
          match statusCodeStage error with
          | some s => .ok (.str s)
          | none =>
              match vendorCodeStage error with
              | some s => .ok (.str s)
              | none =>
                  if (error.propD "message").truthy then .ok (error.propD "message")
                  else .ok (.str "An unknown error occurred while communicating with ONTAP")

/-! Size/Filter Codec: cleanObject (lines 299-314), formatBytes (319-325),
parseSize (331-350). -/

/-- isEmptyValue is the removal test of cleanObject's filter, line 302:
value === undefined, value === null, or value === '' (strict equality, so
only the empty string among non-null primitives). -/
def isEmptyValue : JValue → Bool
  | .undefined => true
  | .null => true
  | .str s => s == ""
  | _ => false

/-- cleanObject is lines 299-314: drop fields with empty values, recurse
into nested plain objects (typeof 'object' and not an array; null was
already excluded) and drop them when they clean to nothing, keep every
other value verbatim - in particular arrays. -/
def cleanObject : JObj → JObj
  | [] => []
  | (k, v) :: rest =>
      if isEmptyValue v then cleanObject rest
      else
        match v with
        | .obj fields =>
            let cleanedNested := cleanObject fields
            if cleanedNested.length = 0 then cleanObject rest
            else (k, .obj cleanedNested) :: cleanObject rest
        | _ => (k, v) :: cleanObject rest
termination_by o => sizeOf o
decreasing_by all_goals (simp_wf <;> omega)

/-- formatBytesSizes is the unit array of formatBytes. -/
def formatBytesSizes : List String := ["B", "KB", "MB", "GB", "TB", "PB"]

/-- toFixed2Round rounds n/d to 2 decimal places, half away from zero,
returning the result scaled by 100; this is toFixed(2) on n/d in exact
arithmetic. -/
def toFixed2Round (n d : Nat) : Nat := (n * 200 + d) / (d * 2)

/-- fixed2ToDisplay renders a 100-scaled 2-decimal value the way
parseFloat(x.toFixed(2)) displays it: trailing zero decimals dropped. -/
def fixed2ToDisplay (r : Nat) : String :=
  if r % 100 = 0 then toString (r / 100)
  else if r % 10 = 0 then toString (r / 100) ++ "." ++ toString (r / 10 % 10)
  else toString (r / 100) ++ "." ++ toString (r / 10 % 10) ++ toString (r % 10)

/-- formatBytesGeneral is the general branch of formatBytes (lines
321-324) in exact arithmetic: unit index Math.floor(Math.log bytes /
Math.log 1024) (= Nat.log 1024 bytes for positive integers), mantissa
bytes / 1024^i rounded to two decimals with trailing zeros dropped, unit
name from the sizes array ("undefined" beyond its end, as JS renders the
out-of-range element). -/
def formatBytesGeneral (bytes : Nat) : String :=
  let i := Nat.log 1024 bytes
  fixed2ToDisplay (toFixed2Round bytes (1024 ^ i)) ++ " " ++
    formatBytesSizes.getD i "undefined"

/-- formatBytes is lines 319-325: zero is special-cased to "0 B" before
any logarithm is taken; every other input takes the general branch. -/
def formatBytes (bytes : Nat) : String :=
  if bytes = 0 then "0 B" else formatBytesGeneral bytes

/-- jsWhitespace is the character class of the regex \s and of
String.prototype.trim, restricted to the ASCII whitespace characters. -/
def jsWhitespace (c : Char) : Bool :=
  c == ' ' || c == '\t' || c == '\n' || c == '\r' ||
    c == Char.ofNat 11 || c == Char.ofNat 12

/-- jsTrim is sizeStr.trim(): whitespace stripped from both ends. -/
def jsTrim (s : String) : String :=
  String.mk (((s.toList.dropWhile jsWhitespace).reverse.dropWhile jsWhitespace).reverse)

/-- digitsToNat reads a digit list as a decimal natural number. -/
def digitsToNat (ds : List Char) : Nat :=
  ds.foldl (fun a c => a * 10 + (c.toNat - 48)) 0

/-- sizeUnitMultiplier is the multipliers table of parseSize, keyed by the
uppercased captured unit with '' defaulting to 'B' (line 338). -/
def sizeUnitMultiplier : String → Option Nat
  | "" => some 1
  | "B" => some 1
  | "KB" => some 1024
  | "MB" => some (1024 ^ 2)
  | "GB" => some (1024 ^ 3)
  | "TB" => some (1024 ^ 4)
  | "PB" => some (1024 ^ 5)
  | _ => none

/-- sizeMatch is the regex of line 332,
`^(\d+(?:\.\d+)?)\s*(B|KB|MB|GB|TB|PB)?$` case-insensitively against the
trimmed input: the captured integer digits, fraction digits (empty when
no fraction) and the unit's multiplier, or none when the input does not
match. -/
def sizeMatch (sizeStr : String) : Option (List Char × List Char × Nat) :=
  let cs := (jsTrim sizeStr).toList
  let intDigits := cs.takeWhile Char.isDigit
  let rest := cs.dropWhile Char.isDigit
  if intDigits.isEmpty then none
  else
    let fracAndRest : List Char × List Char :=
      match rest with
      | '.' :: r =>
          let f := r.takeWhile Char.isDigit
          if f.isEmpty then ([], rest) else (f, r.dropWhile Char.isDigit)
      | _ => ([], rest)
    let unitChars := fracAndRest.2.dropWhile jsWhitespace
    match sizeUnitMultiplier (String.mk (unitChars.map Char.toUpper)) with
    | none => none
    | some mult => some (intDigits, fracAndRest.1, mult)

/-- parseSize is lines 331-350 in exact arithmetic: on a match, the decimal
number times the unit multiplier, floored (exact decimal value D/10^k
times mult, floored, is D * mult / 10^k in natural division); on a
non-match, the thrown format error with the source's message. -/
def parseSize (sizeStr : String) : Except String Nat :=
  match sizeMatch sizeStr with
  | none => .error ("Invalid size format: " ++ sizeStr ++
      ". Use format like \"100GB\" or \"1TB\"")
  | some (intDigits, fracDigits, mult) =>
      .ok (digitsToNat (intDigits ++ fracDigits) * mult / 10 ^ fracDigits.length)

/-- strContains s sub holds when sub occurs contiguously inside s. -/
def strContains (s sub : String) : Prop := ∃ pre post, s = pre ++ sub ++ post

/-! Helper lemmas on the JavaScript object model. -/

theorem jlookup_jset_same (o : JObj) (k : String) (v : JValue) :
    jlookup (jset o k v) k = some v := by
  induction o with
  | nil => simp [jset, jlookup]
  | cons h t ih =>
      obtain ⟨k1, v1⟩ := h
      by_cases hk : k1 = k <;> simp [jset, jlookup, hk, ih]

theorem jlookup_jset_other (o : JObj) (k k1 : String) (v : JValue)
    (hne : k1 ≠ k) : jlookup (jset o k v) k1 = jlookup o k1 := by
  induction o with
  | nil => simp [jset, jlookup, Ne.symm hne]
  | cons h t ih =>
      obtain ⟨k2, v2⟩ := h
      by_cases hk : k2 = k
      · subst hk
        simp [jset, jlookup, Ne.symm hne]
      · simp [jset, jlookup, hk, ih]

theorem jget_jset_same (o : JObj) (k : String) (v : JValue) :
    jget (jset o k v) k = v := by
  simp [jget, jlookup_jset_same]

theorem jget_jset_other (o : JObj) (k k1 : String) (v : JValue)
    (hne : k1 ≠ k) : jget (jset o k v) k1 = jget o k1 := by
  simp [jget, jlookup_jset_other o k k1 v hne]

theorem jset_lookup_self (o : JObj) (k : String) (v : JValue)
    (h : jlookup o k = some v) : jset o k v = o := by
  induction o with
  | nil => simp [jlookup] at h
  | cons hd t ih =>
      obtain ⟨k1, v1⟩ := hd
      by_cases hk : k1 = k
      · subst hk
        simp [jlookup] at h
        simp [jset, h]
      · simp [jlookup, hk] at h
        simp [jset, hk, ih h]

theorem prop_of_not_nullish (v : JValue) (k : String)
    (h1 : v ≠ .null) (h2 : v ≠ .undefined) : v.prop k = .ok (v.propD k) := by
  cases v <;> simp_all [JValue.prop]

theorem ontapApiRequestAllItemsLoop_cons_some {α : Type} (p : OntapPage α)
    (rest : List (OntapPage α)) (link : String) (h : p.nextLink = some link) :
    ontapApiRequestAllItemsLoop (p :: rest) =
      (ontapApiRequestAllItemsLoop rest).map
        (fun r => (p.records.getD [] ++ r.1, r.2 + 1)) := by
  cases hr : ontapApiRequestAllItemsLoop rest <;>
    simp [ontapApiRequestAllItemsLoop, h, hr]

/-- C1: For every connection target and every finite sequence of page
responses returned by the server, ontapApiRequestAllItems returns the
concatenation, in response order, of each page's records array (an absent
records field contributing the empty sequence), issues exactly one request
per page, and terminates exactly when a page's response has no
_links.next.href: when every page but the last carries a next link and the
last does not, the walk returns all records in order with one request per
page, and a walk reaching any page without a next link stops at that page
with that request as its last. -/
theorem ontapApiRequestAllItems_paginates {α : Type} (pages : List (OntapPage α))
    (hne : pages ≠ [])
    (hmid : ∀ i (h : i + 1 < pages.length),
      (pages.get ⟨i, Nat.lt_of_succ_lt h⟩).nextLink.isSome = true)
    (hlast : (pages.getLast hne).nextLink = none) :
    ontapApiRequestAllItemsLoop pages =
      some (pages.flatMap (fun p => p.records.getD []), pages.length) ∧
    ∀ (p : OntapPage α) (rest : List (OntapPage α)), p.nextLink = none →
      ontapApiRequestAllItemsLoop (p :: rest) = some (p.records.getD [], 1) := by
  constructor
  · induction pages with
    | nil => exact absurd rfl hne
    | cons p rest ih =>
        cases rest with
        | nil =>
            simp only [List.getLast_singleton] at hlast
            simp [ontapApiRequestAllItemsLoop, hlast]
        | cons q rest2 =>
            have hp : p.nextLink.isSome = true := by
              have := hmid 0 (by simp)
              simpa using this
            obtain ⟨link, hlink⟩ := Option.isSome_iff_exists.mp hp
            have ihres := ih (by simp)
              (fun i h => by
                have := hmid (i + 1) (by simpa using Nat.succ_lt_succ h)
                simpa using this)
              (by
                rw [List.getLast_cons (by simp)] at hlast
                exact hlast)
            rw [ontapApiRequestAllItemsLoop_cons_some p (q :: rest2) link hlink, ihres]
            simp
  · intro p rest hp
    simp [ontapApiRequestAllItemsLoop, hp]

/-- C1 witness: the spec's concrete scenario, three pages with 2, 2 and 1
records where only the first two carry a next link: 5 records in original
order, 3 requests. -/
theorem ontapApiRequestAllItems_paginates_witness :
    ontapApiRequestAllItemsLoop
      [⟨some [(1 : Nat), 2], some "/api/p2"⟩, ⟨some [3, 4], some "/api/p3"⟩,
       ⟨some [5], none⟩] = some ([1, 2, 3, 4, 5], 3) := by
  have h := ontapApiRequestAllItems_paginates (α := Nat)
    [⟨some [1, 2], some "/api/p2"⟩, ⟨some [3, 4], some "/api/p3"⟩, ⟨some [5], none⟩]
    (by simp)
    (by
      intro i hi
      simp only [List.length_cons, List.length_nil] at hi
      have hi2 : i < 2 := by omega
      interval_cases i <;> rfl)
    (by rfl)
  simpa using h.1

/-- C6 counterexample: the Pagination Walker mutates the caller-supplied
query mapping in place: for an empty query, line 107
(`query.max_records = query.max_records || 1000`) leaves the caller's
mapping holding max_records = 1000, different from its value before the
call. -/
theorem ontapApiRequestAllItems_mutates_query_counterexample :
    ontapApiRequestAllItemsQueryAfter [] = [("max_records", JValue.num 1000)] ∧
    ontapApiRequestAllItemsQueryAfter [] ≠ [] := by
  refine ⟨rfl, ?_⟩
  intro h
  rw [show ontapApiRequestAllItemsQueryAfter [] = [("max_records", JValue.num 1000)]
    from rfl] at h
  exact List.cons_ne_nil _ _ h

/-- C6 amended: no core function mutates its caller-supplied mappings,
except that ontapApiRequestAllItems writes max_records into the caller's
query mapping in place, seeding it to 1000 when it is absent or falsy;
when the caller already supplied a truthy max_records the query mapping is
left equal to its prior value (the other core functions build fresh output
values and leave their inputs unchanged). -/
theorem ontapApiRequestAllItems_preserves_truthy_query (q : JObj) (v : JValue)
    (hv : jlookup q "max_records" = some v) (ht : v.truthy = true) :
    ontapApiRequestAllItemsQueryAfter q = q := by
  unfold ontapApiRequestAllItemsQueryAfter
  have hg : jget q "max_records" = v := by simp [jget, hv]
  rw [hg, if_pos ht]
  exact jset_lookup_self q _ v hv

/-- C6 amended witness: a query already carrying max_records = 50 is left
unchanged by the walk. -/
theorem ontapApiRequestAllItems_preserves_truthy_query_witness :
    ontapApiRequestAllItemsQueryAfter [("max_records", JValue.num 50)] =
      [("max_records", JValue.num 50)] :=
  ontapApiRequestAllItems_preserves_truthy_query
    [("max_records", JValue.num 50)] (JValue.num 50) rfl rfl

/-- C2: For every job UUID and every sequence of job states reported by
the server, the Job Poller behaves as this state machine while within the
timeout window: state success returns the fetched payload immediately;
state failure raises an error whose message contains the job's reported
message, or the fixed fallback "Job failed without error message" when the
server omitted one; any state outside queued/running/paused/success/
failure raises an error reporting "Unknown job state: <value>"; and
queued/running/paused sleeps pollIntervalMs and re-fetches (one loop
iteration later, with elapsed time advanced by pollIntervalMs). -/
theorem pollJobUntilComplete_state_machine (jobUuid : String)
    (timeoutMs pollIntervalMs elapsed : Nat) (j : OntapJobResponse)
    (rest : List OntapJobResponse) (htime : elapsed < timeoutMs) :
    (j.state = "success" →
      pollJobUntilCompleteLoop jobUuid timeoutMs pollIntervalMs elapsed (j :: rest) =
        some (.ok j)) ∧
    (j.state = "failure" →
      pollJobUntilCompleteLoop jobUuid timeoutMs pollIntervalMs elapsed (j :: rest) =
        some (.error ("ONTAP job failed: " ++ jobFailureMessage j)) ∧
      strContains ("ONTAP job failed: " ++ jobFailureMessage j) (jobFailureMessage j) ∧
      (j.message = none → jobFailureMessage j = "Job failed without error message")) ∧
    (j.state ≠ "queued" → j.state ≠ "running" → j.state ≠ "paused" →
     j.state ≠ "success" → j.state ≠ "failure" →
      pollJobUntilCompleteLoop jobUuid timeoutMs pollIntervalMs elapsed (j :: rest) =
        some (.error ("Unknown job state: " ++ j.state))) ∧
    ((j.state = "queued" ∨ j.state = "running" ∨ j.state = "paused") →
      pollJobUntilCompleteLoop jobUuid timeoutMs pollIntervalMs elapsed (j :: rest) =
        pollJobUntilCompleteLoop jobUuid timeoutMs pollIntervalMs
          (elapsed + pollIntervalMs) rest) := by
  refine ⟨?_, ?_, ?_, ?_⟩
  · intro hs
    simp [pollJobUntilCompleteLoop, htime, hs]
  · intro hs
    refine ⟨by simp [pollJobUntilCompleteLoop, htime, hs], ⟨"ONTAP job failed: ", "", by simp⟩, ?_⟩
    intro hm
    simp [jobFailureMessage, hm]
  · intro h1 h2 h3 h4 h5
    simp [pollJobUntilCompleteLoop, htime, h1, h2, h3, h4, h5]
  · intro hs
    rcases hs with hs | hs | hs <;>
      simp [pollJobUntilCompleteLoop, htime, hs]

/-- C2 witness: concrete runs of the poller: success returns the payload,
failure without a message raises the fallback-carrying error, an unknown
state raises the unknown-state error, and a running state defers to the
next fetch with elapsed time advanced by the poll interval. -/
theorem pollJobUntilComplete_state_machine_witness :
    pollJobUntilCompleteLoop "u1" 300000 2000 0 [⟨"u1", "success", none⟩] =
      some (.ok ⟨"u1", "success", none⟩) ∧
    pollJobUntilCompleteLoop "u1" 300000 2000 0 [⟨"u1", "failure", none⟩] =
      some (.error "ONTAP job failed: Job failed without error message") ∧
    pollJobUntilCompleteLoop "u1" 300000 2000 0 [⟨"u1", "exploded", none⟩] =
      some (.error "Unknown job state: exploded") ∧
    pollJobUntilCompleteLoop "u1" 300000 2000 0
        [⟨"u1", "running", none⟩, ⟨"u1", "success", none⟩] =
      pollJobUntilCompleteLoop "u1" 300000 2000 2000 [⟨"u1", "success", none⟩] := by
  refine ⟨?_, ?_, ?_, ?_⟩
  · exact (pollJobUntilComplete_state_machine "u1" 300000 2000 0
      ⟨"u1", "success", none⟩ [] (by omega)).1 rfl
  · have h := (pollJobUntilComplete_state_machine "u1" 300000 2000 0
      ⟨"u1", "failure", none⟩ [] (by omega)).2.1 rfl
    simpa [jobFailureMessage] using h.1
  · exact (pollJobUntilComplete_state_machine "u1" 300000 2000 0
      ⟨"u1", "exploded", none⟩ [] (by omega)).2.2.1
      (by simp) (by simp) (by simp) (by simp) (by simp)
  · exact (pollJobUntilComplete_state_machine "u1" 300000 2000 0
      ⟨"u1", "running", none⟩ [⟨"u1", "success", none⟩] (by omega)).2.2.2
      (Or.inr (Or.inl rfl))

/-- C3: For every response mapping, handleAsyncResponse satisfies exactly
one of three cases: when response.job.uuid is absent (the source's guard
`job && job.uuid` fails) the response is returned unchanged; when present
with waitForCompletion true it returns a copy of the response with job
replaced by the poller's completed payload and _jobCompleted set to true
(all other fields unchanged); when present with waitForCompletion false it
returns a copy with _jobCompleted set to false and job left as the initial
reference; and it never fails except by forwarding the poller's failure. -/
theorem handleAsyncResponse_cases (response : JObj)
    (pollResult : Except String JValue) :
    (((jget response "job").truthy &&
        ((jget response "job").propD "uuid").truthy) = false →
      ∀ w, handleAsyncResponse response w pollResult = .ok response) ∧
    (((jget response "job").truthy &&
        ((jget response "job").propD "uuid").truthy) = true →
      (∀ cj, pollResult = .ok cj →
        handleAsyncResponse response true pollResult =
          .ok (jset (jset response "job" cj) "_jobCompleted" (.bool true)) ∧
        jget (jset (jset response "job" cj) "_jobCompleted" (.bool true)) "job" = cj ∧
        jget (jset (jset response "job" cj) "_jobCompleted" (.bool true))
          "_jobCompleted" = .bool true ∧
        ∀ k, k ≠ "job" → k ≠ "_jobCompleted" →
          jget (jset (jset response "job" cj) "_jobCompleted" (.bool true)) k =
            jget response k) ∧
      (∀ e, pollResult = .error e →
        handleAsyncResponse response true pollResult = .error e) ∧
      (handleAsyncResponse response false pollResult =
          .ok (jset response "_jobCompleted" (.bool false)) ∧
        jget (jset response "_jobCompleted" (.bool false)) "job" =
          jget response "job" ∧
        jget (jset response "_jobCompleted" (.bool false)) "_jobCompleted" =
          .bool false ∧
        ∀ k, k ≠ "_jobCompleted" →
          jget (jset response "_jobCompleted" (.bool false)) k = jget response k)) ∧
    (∀ w e, handleAsyncResponse response w pollResult = .error e →
      pollResult = .error e) := by
  refine ⟨?_, ?_, ?_⟩
  · intro hguard w
    simp [handleAsyncResponse, hguard]
  · intro hguard
    refine ⟨?_, ?_, ?_⟩
    · intro cj hcj
      refine ⟨by simp [handleAsyncResponse, hguard, hcj], ?_, ?_, ?_⟩
      · rw [jget_jset_other _ "_jobCompleted" "job" _ (by simp),
          jget_jset_same]
      · rw [jget_jset_same]
      · intro k hk1 hk2
        rw [jget_jset_other _ "_jobCompleted" k _ hk2,
          jget_jset_other _ "job" k _ hk1]
    · intro e he
      simp [handleAsyncResponse, hguard, he]
    · refine ⟨by simp [handleAsyncResponse, hguard], ?_, ?_, ?_⟩
      · rw [jget_jset_other _ "_jobCompleted" "job" _ (by simp)]
      · rw [jget_jset_same]
      · intro k hk
        rw [jget_jset_other _ "_jobCompleted" k _ hk]
  · intro w e he
    by_cases hguard : ((jget response "job").truthy &&
        ((jget response "job").propD "uuid").truthy) = true
    · cases w
      · simp [handleAsyncResponse, hguard] at he
      · cases pollResult with
        | error e1 =>
            simp [handleAsyncResponse, hguard] at he
            simp [he]
        | ok cj => simp [handleAsyncResponse, hguard] at he
    · simp [handleAsyncResponse, Bool.of_not_eq_true hguard] at he

/-- C3 witness: a response without a job reference passes through
unchanged; a response with a job reference is resolved to the completed
payload with the marker set when waiting, has the error forwarded when the
poller fails, and keeps the initial job reference with a false marker when
not waiting. -/
theorem handleAsyncResponse_cases_witness :
    handleAsyncResponse [("uuid", JValue.str "x")] true
      (.ok (.obj [("state", JValue.str "success")])) =
      .ok [("uuid", JValue.str "x")] ∧
    handleAsyncResponse [("job", JValue.obj [("uuid", JValue.str "j1")])] true
      (.ok (.obj [("uuid", JValue.str "j1"), ("state", JValue.str "success")])) =
      .ok [("job", JValue.obj [("uuid", JValue.str "j1"),
            ("state", JValue.str "success")]),
           ("_jobCompleted", JValue.bool true)] ∧
    handleAsyncResponse [("job", JValue.obj [("uuid", JValue.str "j1")])] true
      (.error "boom") = .error "boom" ∧
    handleAsyncResponse [("job", JValue.obj [("uuid", JValue.str "j1")])] false
      (.ok (.obj [("state", JValue.str "success")])) =
      .ok [("job", JValue.obj [("uuid", JValue.str "j1")]),
           ("_jobCompleted", JValue.bool false)] := by
  refine ⟨?_, ?_, ?_, ?_⟩
  · exact (handleAsyncResponse_cases [("uuid", JValue.str "x")]
      (.ok (.obj [("state", JValue.str "success")]))).1 (by rfl) true
  · have h := ((handleAsyncResponse_cases
      [("job", JValue.obj [("uuid", JValue.str "j1")])]
      (.ok (.obj [("uuid", JValue.str "j1"), ("state", JValue.str "success")]))).2.1
      (by rfl)).1 (.obj [("uuid", JValue.str "j1"), ("state", JValue.str "success")]) rfl
    simpa [jset, jget, jlookup] using h.1
  · exact ((handleAsyncResponse_cases
      [("job", JValue.obj [("uuid", JValue.str "j1")])] (.error "boom")).2.1
      (by rfl)).2.1 "boom" rfl
  · have h := ((handleAsyncResponse_cases
      [("job", JValue.obj [("uuid", JValue.str "j1")])]
      (.ok (.obj [("state", JValue.str "success")]))).2.1 (by rfl)).2.2
    simpa [jset, jget, jlookup] using h.1

theorem statusCodeMessage_ne_zero (n : Int) (s : String)
    (h : statusCodeMessage n = some s) : n ≠ 0 := by
  intro h0
  subst h0
  simp [statusCodeMessage] at h

theorem mapJsMessages_ok (elems : List JValue)
    (h : ∀ x ∈ elems, x ≠ .null ∧ x ≠ .undefined) :
    ∃ ms, mapJsMessages elems = .ok ms := by
  induction elems with
  | nil => exact ⟨[], rfl⟩
  | cons e rest ih =>
      obtain ⟨hnn, hnu⟩ := h e (by simp)
      obtain ⟨ms, hms⟩ := ih (fun x hx => h x (by simp [hx]))
      refine ⟨(if (e.propD "message").truthy then e.propD "message"
        else .str "Unknown error") :: ms, ?_⟩
      simp [mapJsMessages, prop_of_not_nullish e "message" hnn hnu, hms]

theorem ontapNestedError_cases (x : JValue) :
    ontapNestedError x = none ∨
    (∃ s, ontapNestedError x = some (.ok (.str s))) ∨
    (∃ elems, x = .arr elems ∧ ontapNestedError x = some (joinArrayErrors elems)) := by
  by_cases htr : x.truthy = true
  · cases hm : (x.propD "message").truthy with
    | true =>
        exact Or.inr (Or.inl ⟨jsToString (x.propD "message") ++ codeSuffix x,
          by simp [ontapNestedError, htr, hm]⟩)
    | false =>
        cases x <;> first
          | exact Or.inr (Or.inr ⟨_, rfl, by simp [ontapNestedError, htr, hm]⟩)
          | exact Or.inl (by simp [ontapNestedError, htr, hm])
  · exact Or.inl (by simp [ontapNestedError, Bool.not_eq_true _ ▸ htr,
      Bool.of_not_eq_true htr])

/-- C4: parseOntapError applies its rules in precedence order with first
match winning: a truthy nested error.message is returned, stringified,
with the code suffix appended when a truthy code is present, regardless of
any status code; the concrete mixed input normalizes to
"x (Error code: 917927)"; a status code in the fixed table wins over the
vendor numeric-code table (no constraint on err.code); and when no rule
matches, the fixed fallback is returned. -/
theorem parseOntapError_precedence :
    (∀ (e errv msgv : JValue), e ≠ .null → e ≠ .undefined →
      e.propD "error" = errv → errv.truthy = true →
      errv.propD "message" = msgv → msgv.truthy = true →
      parseOntapError e = .ok (.str (jsToString msgv ++ codeSuffix errv))) ∧
    (parseOntapError (.obj [("error", .obj [("message", .str "x"),
        ("code", .str "917927")]), ("statusCode", .num 404)]) =
      .ok (.str "x (Error code: 917927)")) ∧
    (∀ (e : JValue) (n : Int) (s : String), e ≠ .null → e ≠ .undefined →
      (e.propD "error").truthy = false →
      e.propD "statusCode" = .num n → statusCodeMessage n = some s →
      parseOntapError e = .ok (.str s)) ∧
    (∀ (e : JValue), e ≠ .null → e ≠ .undefined →
      ontapNestedError (e.propD "error") = none →
      statusCodeStage e = none → vendorCodeStage e = none →
      (e.propD "message").truthy = false →
      parseOntapError e =
        .ok (.str "An unknown error occurred while communicating with ONTAP")) := by
  refine ⟨?_, ?_, ?_, ?_⟩
  · intro e errv msgv h1 h2 herr htruthy hmsg hmtruthy
    simp only [parseOntapError, prop_of_not_nullish e "error" h1 h2, herr]
    simp [ontapNestedError, htruthy, hmsg, hmtruthy]
  · rfl
  · intro e n s h1 h2 herrfalsy hsc hmsg
    have hn : n ≠ 0 := statusCodeMessage_ne_zero n s hmsg
    have hnested : ontapNestedError (e.propD "error") = none := by
      simp [ontapNestedError, herrfalsy]
    have hstat : statusCodeStage e = some s := by
      simp [statusCodeStage, hsc, JValue.truthy, hn, hmsg]
    simp only [parseOntapError, prop_of_not_nullish e "error" h1 h2]
    simp [hnested, hstat]
  · intro e h1 h2 hnested hstatus hvendor hmsg
    simp only [parseOntapError, prop_of_not_nullish e "error" h1 h2]
    simp [hnested, hstatus, hvendor, hmsg]

/-- C4 witness: the nested rule applied at a concrete input without a
code; the spec's concrete mixed input; the status-table rule winning over
a vendor code that is itself in the vendor table; and the fallback at the
empty error object. -/
theorem parseOntapError_precedence_witness :
    parseOntapError (.obj [("error", .obj [("message", .str "m")])]) =
      .ok (.str "m") ∧
    parseOntapError (.obj [("error", .obj [("message", .str "x"),
        ("code", .str "917927")]), ("statusCode", .num 404)]) =
      .ok (.str "x (Error code: 917927)") ∧
    parseOntapError (.obj [("statusCode", .num 404), ("code", .str "65536")]) =
      .ok (.str "Resource not found") ∧
    parseOntapError (.obj []) =
      .ok (.str "An unknown error occurred while communicating with ONTAP") := by
  refine ⟨?_, parseOntapError_precedence.2.1, ?_, ?_⟩
  · have h := parseOntapError_precedence.1
      (.obj [("error", .obj [("message", .str "m")])])
      (.obj [("message", .str "m")]) (.str "m")
      (fun hh => JValue.noConfusion hh) (fun hh => JValue.noConfusion hh)
      rfl rfl rfl rfl
    simpa [codeSuffix, jsToString] using h
  · exact parseOntapError_precedence.2.2.1
      (.obj [("statusCode", .num 404), ("code", .str "65536")]) 404
      "Resource not found" (fun hh => JValue.noConfusion hh)
      (fun hh => JValue.noConfusion hh) rfl rfl rfl
  · exact parseOntapError_precedence.2.2.2 (.obj [])
      (fun hh => JValue.noConfusion hh) (fun hh => JValue.noConfusion hh)
      rfl rfl rfl rfl

/-- C5 counterexample: parseOntapError is not total: reading .error of a
null raw error throws a TypeError; a nested error array containing a null
element throws inside the map; and the raw-message fallback returns the
message value unconverted, so a numeric message yields a non-string. -/
theorem parseOntapError_not_total_counterexample :
    parseOntapError .null = .error () ∧
    parseOntapError (.obj [("error", .arr [.null])]) = .error () ∧
    parseOntapError (.obj [("message", .num 42)]) = .ok (.num 42) ∧
    ∀ s : String, JValue.num 42 ≠ .str s := by
  exact ⟨rfl, rfl, rfl, fun s h => JValue.noConfusion h⟩

/-- C5 amended: parseOntapError returns a string and does not itself throw
for every input that is not null/undefined, whose nested error field, when
it is an array, contains no null/undefined element, and whose top-level
message field, when truthy, is a string (on a truthy non-string message
the source returns that raw value unconverted). -/
theorem parseOntapError_total_on_safe_inputs (e : JValue)
    (h1 : e ≠ .null) (h2 : e ≠ .undefined)
    (h3 : ∀ elems, e.propD "error" = .arr elems →
      ∀ x ∈ elems, x ≠ .null ∧ x ≠ .undefined)
    (h4 : (e.propD "message").truthy = true → ∃ s, e.propD "message" = .str s) :
    ∃ s : String, parseOntapError e = .ok (.str s) := by
  simp only [parseOntapError, prop_of_not_nullish e "error" h1 h2]
  rcases ontapNestedError_cases (e.propD "error") with hnone | ⟨s, hs⟩ | ⟨elems, helem, hjoin⟩
  · rw [hnone]
    cases hst : statusCodeStage e with
    | some s1 => exact ⟨s1, by simp [hst]⟩
    | none =>
        cases hv : vendorCodeStage e with
        | some s2 => exact ⟨s2, by simp [hst, hv]⟩
        | none =>
            cases hm : (e.propD "message").truthy with
            | true =>
                obtain ⟨s3, hs3⟩ := h4 hm
                exact ⟨s3, by simp [hst, hv, hm, hs3]⟩
            | false =>
                exact ⟨"An unknown error occurred while communicating with ONTAP",
                  by simp [hst, hv, hm]⟩
  · exact ⟨s, by rw [hs]⟩
  · obtain ⟨ms, hms⟩ := mapJsMessages_ok elems (h3 elems helem)
    rw [hjoin]
    exact ⟨String.intercalate "; " (ms.map jsToString),
      by simp [joinArrayErrors, hms]⟩

/-- C5 amended witness: a safe concrete input normalizes to a string. -/
theorem parseOntapError_total_on_safe_inputs_witness :
    ∃ s : String, parseOntapError (.obj [("message", .str "boom")]) =
      .ok (.str s) :=
  parseOntapError_total_on_safe_inputs (.obj [("message", .str "boom")])
    (fun h => JValue.noConfusion h) (fun h => JValue.noConfusion h)
    (fun _ h => JValue.noConfusion h) (fun _ => ⟨"boom", rfl⟩)

/-- C7: ontapApiRequest omits the body field entirely for GET and DELETE
requests; omits the query-parameter field entirely when the caller's query
mapping is empty; and forwards both fields for other methods with
non-empty query. -/
theorem ontapApiRequest_omissions (method endpoint : String) (body query : JObj)
    (uri : Option String) (baseUrl : String) (allow : Bool) :
    ((method = "GET" ∨ method = "DELETE") →
      (ontapApiRequestOptions method endpoint body query uri baseUrl allow).body =
        none) ∧
    (query = [] →
      (ontapApiRequestOptions method endpoint body query uri baseUrl allow).qs =
        none) ∧
    (method ≠ "GET" → method ≠ "DELETE" → query ≠ [] →
      (ontapApiRequestOptions method endpoint body query uri baseUrl allow).body =
        some body ∧
      (ontapApiRequestOptions method endpoint body query uri baseUrl allow).qs =
        some query) := by
  refine ⟨?_, ?_, ?_⟩
  · intro hm
    by_cases hq : query.length = 0 <;>
      simp [ontapApiRequestOptions, hm, hq]
  · intro hq
    subst hq
    by_cases hm : method = "GET" ∨ method = "DELETE" <;>
      simp [ontapApiRequestOptions, hm]
  · intro h1 h2 hq
    have hql : ¬ query.length = 0 := by
      simpa [List.length_eq_zero] using hq
    constructor <;> simp [ontapApiRequestOptions, h1, h2, hql]

/-- C7 witness: a GET with empty query carries neither body nor query; a
POST with a non-empty query carries both verbatim. -/
theorem ontapApiRequest_omissions_witness :
    (ontapApiRequestOptions "GET" "/storage/volumes" [] [] none
      "https://cluster:443" false).body = none ∧
    (ontapApiRequestOptions "GET" "/storage/volumes" [] [] none
      "https://cluster:443" false).qs = none ∧
    (ontapApiRequestOptions "POST" "/storage/volumes"
      [("name", JValue.str "v1")] [("return_records", JValue.bool true)] none
      "https://cluster:443" false).body = some [("name", JValue.str "v1")] ∧
    (ontapApiRequestOptions "POST" "/storage/volumes"
      [("name", JValue.str "v1")] [("return_records", JValue.bool true)] none
      "https://cluster:443" false).qs =
        some [("return_records", JValue.bool true)] := by
  have h1 := ontapApiRequest_omissions "GET" "/storage/volumes" [] [] none
    "https://cluster:443" false
  have h2 := ontapApiRequest_omissions "POST" "/storage/volumes"
    [("name", JValue.str "v1")] [("return_records", JValue.bool true)] none
    "https://cluster:443" false
  exact ⟨h1.1 (Or.inl rfl), h1.2.1 rfl,
    (h2.2.2 (by decide) (by decide) (by simp)).1,
    (h2.2.2 (by decide) (by decide) (by simp)).2⟩

/-- C8: parseSize accepts exactly the strings matching the source regex
(number, optional fraction, optional whitespace, optional case-insensitive
unit among B/KB/MB/GB/TB/PB defaulting to bytes), returns the number times
the base-1024 multiplier floored to an integer, and throws the format
error for every other string; in particular 100GB, 1TB, 500 and the
rejected input bogus behave as the spec states. -/
theorem parseSize_grammar :
    parseSize "100GB" = .ok 107374182400 ∧
    parseSize "1TB" = .ok 1099511627776 ∧
    parseSize "500" = .ok 500 ∧
    parseSize "bogus" =
      .error "Invalid size format: bogus. Use format like \"100GB\" or \"1TB\"" ∧
    (∀ s intDigits fracDigits mult,
      sizeMatch s = some (intDigits, fracDigits, mult) →
      parseSize s = .ok (digitsToNat (intDigits ++ fracDigits) * mult /
        10 ^ fracDigits.length)) ∧
    (∀ s, sizeMatch s = none →
      parseSize s = .error ("Invalid size format: " ++ s ++
        ". Use format like \"100GB\" or \"1TB\"")) := by
  refine ⟨rfl, rfl, rfl, rfl, ?_, ?_⟩
  · intro s intDigits fracDigits mult h
    simp [parseSize, h]
  · intro s h
    simp [parseSize, h]

/-- C8 witness: the accepted-match rule applied at the concrete input
2.5KB yields floor(2.5 * 1024) = 2560 bytes. -/
theorem parseSize_grammar_witness : parseSize "2.5KB" = .ok 2560 := by
  have h := parseSize_grammar.2.2.2.2.1 "2.5KB" ['2'] ['5'] 1024 rfl
  exact h.trans rfl

/-- C10: formatBytes special-cases zero to exactly "0 B" before any
logarithm is taken; every positive input takes the general branch, whose
exact-arithmetic unit index is the largest one with mantissa at least 1:
1024^i <= n < 1024^(i+1). -/
theorem formatBytes_zero_special_case :
    formatBytes 0 = "0 B" ∧
    (∀ n : Nat, 0 < n → formatBytes n = formatBytesGeneral n) ∧
    (∀ n : Nat, 0 < n →
      1024 ^ Nat.log 1024 n ≤ n ∧ n < 1024 ^ (Nat.log 1024 n + 1)) := by
  refine ⟨rfl, ?_, ?_⟩
  · intro n hn
    simp [formatBytes, Nat.pos_iff_ne_zero.mp hn]
  · intro n hn
    exact ⟨Nat.pow_log_le_self 1024 (Nat.pos_iff_ne_zero.mp hn),
      Nat.lt_pow_succ_log_self (by norm_num) n⟩

/-- C10 witness: at 1536 bytes the general branch applies ("1.5 KB") with
unit index 1 and mantissa bounds 1024 <= 1536 < 1024^2. -/
theorem formatBytes_zero_special_case_witness :
    formatBytes 1536 = formatBytesGeneral 1536 ∧
    1024 ^ Nat.log 1024 1536 ≤ 1536 ∧ 1536 < 1024 ^ (Nat.log 1024 1536 + 1) :=
  ⟨formatBytes_zero_special_case.2.1 1536 (by norm_num),
   (formatBytes_zero_special_case.2.2 1536 (by norm_num)).1,
   (formatBytes_zero_special_case.2.2 1536 (by norm_num)).2⟩

theorem cleanObject_cons_empty (k1 : String) (v1 : JValue) (rest : JObj)
    (h : isEmptyValue v1 = true) :
    cleanObject ((k1, v1) :: rest) = cleanObject rest := by
  cases v1 <;> simp_all [cleanObject, isEmptyValue]

theorem cleanObject_cons_plain (k1 : String) (v1 : JValue) (rest : JObj)
    (h : isEmptyValue v1 = false) (hnobj : ∀ fields, v1 ≠ JValue.obj fields) :
    cleanObject ((k1, v1) :: rest) = (k1, v1) :: cleanObject rest := by
  cases v1 with
  | undefined => simp [isEmptyValue] at h
  | null => simp [isEmptyValue] at h
  | bool b => simp [cleanObject, isEmptyValue]
  | num n => simp [cleanObject, isEmptyValue]
  | str s =>
      simp only [isEmptyValue, beq_eq_false_iff_ne, ne_eq] at h
      simp [cleanObject, isEmptyValue, h]
  | arr xs => simp [cleanObject, isEmptyValue]
  | obj fields => exact absurd rfl (hnobj fields)

theorem cleanObject_cons_obj_drop (k1 : String) (fields : JObj) (rest : JObj)
    (h : cleanObject fields = []) :
    cleanObject ((k1, JValue.obj fields) :: rest) = cleanObject rest := by
  simp [cleanObject, isEmptyValue, h]

theorem cleanObject_cons_obj_keep (k1 : String) (fields : JObj) (rest : JObj)
    (h : cleanObject fields ≠ []) :
    cleanObject ((k1, JValue.obj fields) :: rest) =
      (k1, JValue.obj (cleanObject fields)) :: cleanObject rest := by
  have hl : ¬ (cleanObject fields).length = 0 := by
    simpa [List.length_eq_zero] using h
  simp [cleanObject, isEmptyValue, hl]

theorem cleanObject_keeps_plain (o : JObj) (k : String) (v : JValue)
    (hmem : (k, v) ∈ o) (hne : isEmptyValue v = false)
    (hnobj : ∀ fields, v ≠ JValue.obj fields) : (k, v) ∈ cleanObject o := by
  induction o with
  | nil => simp at hmem
  | cons hd rest ih =>
      obtain ⟨k1, v1⟩ := hd
      rcases List.mem_cons.mp hmem with heq | hm2
      · injection heq with hk hv
        subst hk
        subst hv
        rw [cleanObject_cons_plain k v rest hne hnobj]
        exact List.mem_cons_self _ _
      · by_cases he1 : isEmptyValue v1 = true
        · rw [cleanObject_cons_empty k1 v1 rest he1]
          exact ih hm2
        · have he1f : isEmptyValue v1 = false := by simpa using he1
          by_cases hobj : ∃ fields, v1 = JValue.obj fields
          · obtain ⟨fields, rfl⟩ := hobj
            by_cases hcf : cleanObject fields = []
            · rw [cleanObject_cons_obj_drop k1 fields rest hcf]
              exact ih hm2
            · rw [cleanObject_cons_obj_keep k1 fields rest hcf]
              exact List.mem_cons_of_mem _ (ih hm2)
          · have hnobj1 : ∀ fields, v1 ≠ JValue.obj fields :=
              fun f hf => hobj ⟨f, hf⟩
            rw [cleanObject_cons_plain k1 v1 rest he1f hnobj1]
            exact List.mem_cons_of_mem _ (ih hm2)

theorem cleanObject_output_nonempty (o : JObj) (k : String) (v : JValue)
    (hmem : (k, v) ∈ cleanObject o) : isEmptyValue v = false := by
  induction o with
  | nil => simp [cleanObject] at hmem
  | cons hd rest ih =>
      obtain ⟨k1, v1⟩ := hd
      by_cases he1 : isEmptyValue v1 = true
      · rw [cleanObject_cons_empty k1 v1 rest he1] at hmem
        exact ih hmem
      · have he1f : isEmptyValue v1 = false := by simpa using he1
        by_cases hobj : ∃ fields, v1 = JValue.obj fields
        · obtain ⟨fields, rfl⟩ := hobj
          by_cases hcf : cleanObject fields = []
          · rw [cleanObject_cons_obj_drop k1 fields rest hcf] at hmem
            exact ih hmem
          · rw [cleanObject_cons_obj_keep k1 fields rest hcf] at hmem
            rcases List.mem_cons.mp hmem with heq | hm2
            · injection heq with hk hv
              subst hv
              rfl
            · exact ih hm2
        · have hnobj1 : ∀ fields, v1 ≠ JValue.obj fields :=
            fun f hf => hobj ⟨f, hf⟩
          rw [cleanObject_cons_plain k1 v1 rest he1f hnobj1] at hmem
          rcases List.mem_cons.mp hmem with heq | hm2
          · injection heq with hk hv
            subst hv
            exact he1f
          · exact ih hm2

theorem cleanObject_keeps_nested (o : JObj) (k : String) (nested : JObj)
    (hmem : (k, JValue.obj nested) ∈ o) (hne : cleanObject nested ≠ []) :
    (k, JValue.obj (cleanObject nested)) ∈ cleanObject o := by
  induction o with
  | nil => simp at hmem
  | cons hd rest ih =>
      obtain ⟨k1, v1⟩ := hd
      rcases List.mem_cons.mp hmem with heq | hm2
      · injection heq with hk hv
        subst hk
        subst hv
        rw [cleanObject_cons_obj_keep k nested rest hne]
        exact List.mem_cons_self _ _
      · by_cases he1 : isEmptyValue v1 = true
        · rw [cleanObject_cons_empty k1 v1 rest he1]
          exact ih hm2
        · have he1f : isEmptyValue v1 = false := by simpa using he1
          by_cases hobj : ∃ fields, v1 = JValue.obj fields
          · obtain ⟨fields, rfl⟩ := hobj
            by_cases hcf : cleanObject fields = []
            · rw [cleanObject_cons_obj_drop k1 fields rest hcf]
              exact ih hm2
            · rw [cleanObject_cons_obj_keep k1 fields rest hcf]
              exact List.mem_cons_of_mem _ (ih hm2)
          · have hnobj1 : ∀ fields, v1 ≠ JValue.obj fields :=
              fun f hf => hobj ⟨f, hf⟩
            rw [cleanObject_cons_plain k1 v1 rest he1f hnobj1]
            exact List.mem_cons_of_mem _ (ih hm2)

theorem cleanObject_keys_subset (o : JObj) (k : String)
    (hmem : k ∈ (cleanObject o).map Prod.fst) : k ∈ o.map Prod.fst := by
  induction o with
  | nil => simp [cleanObject] at hmem
  | cons hd rest ih =>
      obtain ⟨k1, v1⟩ := hd
      simp only [List.map_cons]
      by_cases he1 : isEmptyValue v1 = true
      · rw [cleanObject_cons_empty k1 v1 rest he1] at hmem
        exact List.mem_cons_of_mem _ (ih hmem)
      · have he1f : isEmptyValue v1 = false := by simpa using he1
        by_cases hobj : ∃ fields, v1 = JValue.obj fields
        · obtain ⟨fields, rfl⟩ := hobj
          by_cases hcf : cleanObject fields = []
          · rw [cleanObject_cons_obj_drop k1 fields rest hcf] at hmem
            exact List.mem_cons_of_mem _ (ih hmem)
          · rw [cleanObject_cons_obj_keep k1 fields rest hcf] at hmem
            simp only [List.map_cons] at hmem
            rcases List.mem_cons.mp hmem with heq | hm2
            · rw [heq]
              exact List.mem_cons_self _ _
            · exact List.mem_cons_of_mem _ (ih hm2)
        · have hnobj1 : ∀ fields, v1 ≠ JValue.obj fields :=
            fun f hf => hobj ⟨f, hf⟩
          rw [cleanObject_cons_plain k1 v1 rest he1f hnobj1] at hmem
          simp only [List.map_cons] at hmem
          rcases List.mem_cons.mp hmem with heq | hm2
          · rw [heq]
            exact List.mem_cons_self _ _
          · exact List.mem_cons_of_mem _ (ih hm2)

theorem cleanObject_drops_empty_nested (o : JObj) (k : String) (nested : JObj)
    (hnd : (o.map Prod.fst).Nodup) (hmem : (k, JValue.obj nested) ∈ o)
    (hclean : cleanObject nested = []) :
    k ∉ (cleanObject o).map Prod.fst := by
  induction o with
  | nil => simp at hmem
  | cons hd rest ih =>
      obtain ⟨k1, v1⟩ := hd
      have hndc : (k1 :: rest.map Prod.fst).Nodup := by
        simpa only [List.map_cons] using hnd
      have hnd1 := List.nodup_cons.mp hndc
      rcases List.mem_cons.mp hmem with heq | hm2
      · injection heq with hk hv
        subst hk
        subst hv
        rw [cleanObject_cons_obj_drop k nested rest hclean]
        intro hc
        exact hnd1.1 (cleanObject_keys_subset rest k hc)
      · have hkinrest : k ∈ rest.map Prod.fst :=
          List.mem_map_of_mem Prod.fst hm2
        have hk1ne : k1 ≠ k := fun h => hnd1.1 (h ▸ hkinrest)
        have ihres := ih hnd1.2 hm2
        by_cases he1 : isEmptyValue v1 = true
        · rw [cleanObject_cons_empty k1 v1 rest he1]
          exact ihres
        · have he1f : isEmptyValue v1 = false := by simpa using he1
          by_cases hobj : ∃ fields, v1 = JValue.obj fields
          · obtain ⟨fields, rfl⟩ := hobj
            by_cases hcf : cleanObject fields = []
            · rw [cleanObject_cons_obj_drop k1 fields rest hcf]
              exact ihres
            · rw [cleanObject_cons_obj_keep k1 fields rest hcf]
              intro hc
              simp only [List.map_cons] at hc
              rcases List.mem_cons.mp hc with heq1 | hm3
              · exact hk1ne heq1.symm
              · exact ihres hm3
          · have hnobj1 : ∀ fields, v1 ≠ JValue.obj fields :=
              fun f hf => hobj ⟨f, hf⟩
            rw [cleanObject_cons_plain k1 v1 rest he1f hnobj1]
            intro hc
            simp only [List.map_cons] at hc
            rcases List.mem_cons.mp hc with heq1 | hm3
            · exact hk1ne heq1.symm
            · exact ihres hm3

/-- C9: cleanObject removes exactly the keys whose value is undefined,
null, or the empty string (no such value survives in the output, and every
other non-mapping value is kept verbatim, arrays included, never recursed
into or filtered); it recurses into nested non-array mappings, keeping
them cleaned when nonempty and dropping them entirely when they clean to
nothing; and the spec's concrete example evaluates as stated. -/
theorem cleanObject_spec :
    cleanObject [("a", JValue.str ""), ("b", JValue.null),
      ("c", JValue.obj [("d", JValue.str "")]),
      ("e", JValue.obj [("f", JValue.str "x")]),
      ("g", JValue.arr [JValue.num 1, JValue.num 2])] =
      [("e", JValue.obj [("f", JValue.str "x")]),
       ("g", JValue.arr [JValue.num 1, JValue.num 2])] ∧
    (∀ (o : JObj) (k : String) (v : JValue), (k, v) ∈ o →
      isEmptyValue v = false → (∀ fields, v ≠ JValue.obj fields) →
      (k, v) ∈ cleanObject o) ∧
    (∀ (o : JObj) (k : String) (v : JValue), (k, v) ∈ cleanObject o →
      isEmptyValue v = false) ∧
    (∀ (o : JObj) (k : String) (nested : JObj), (k, JValue.obj nested) ∈ o →
      cleanObject nested ≠ [] →
      (k, JValue.obj (cleanObject nested)) ∈ cleanObject o) ∧
    (∀ (o : JObj) (k : String) (nested : JObj),
      (o.map Prod.fst).Nodup → (k, JValue.obj nested) ∈ o →
      cleanObject nested = [] → k ∉ (cleanObject o).map Prod.fst) := by
  refine ⟨?_, ?_, ?_, ?_, ?_⟩
  · simp [cleanObject, isEmptyValue]
  · exact cleanObject_keeps_plain
  · exact cleanObject_output_nonempty
  · exact cleanObject_keeps_nested
  · exact cleanObject_drops_empty_nested

/-- C9 witness: the four general rules applied at concrete inputs: the
array under g is preserved verbatim, survivors are never empty values, the
nested mapping under e is kept cleaned, and the nested mapping under c that
cleans to nothing is dropped. -/
theorem cleanObject_spec_witness :
    (("g", JValue.arr [JValue.num 1, JValue.num 2]) ∈
      cleanObject [("a", JValue.str ""),
        ("g", JValue.arr [JValue.num 1, JValue.num 2])]) ∧
    isEmptyValue (JValue.arr [JValue.num 1, JValue.num 2]) = false ∧
    (("e", JValue.obj (cleanObject [("f", JValue.str "x")])) ∈
      cleanObject [("e", JValue.obj [("f", JValue.str "x")])]) ∧
    "c" ∉ (cleanObject [("c", JValue.obj [("d", JValue.str "")])]).map
      Prod.fst := by
  refine ⟨?_, ?_, ?_, ?_⟩
  · exact cleanObject_spec.2.1 _ "g" _ (by simp) rfl
      (fun f h => JValue.noConfusion h)
  · exact cleanObject_spec.2.2.1
      [("g", JValue.arr [JValue.num 1, JValue.num 2])] "g"
      (JValue.arr [JValue.num 1, JValue.num 2])
      (by simp [cleanObject, isEmptyValue])
  · exact cleanObject_spec.2.2.2.1 _ "e" [("f", JValue.str "x")] (by simp)
      (by simp [cleanObject, isEmptyValue])
  · exact cleanObject_spec.2.2.2.2 _ "c" [("d", JValue.str "")] (by simp)
      (by simp) (by simp [cleanObject, isEmptyValue])
